import Mathlib

/-!
Verification of the labonneboite-common scoring / office model.

Shallow embedding of `labonneboite_common/models/office.py` and of the scoring,
mapping and hiring-type helpers it calls.  Machine floats are modelled by exact
rationals (`ℚ`); Python exceptions are modelled by `Except PyErr`; Python `dict`
results are modelled by insertion-ordered association lists.

Modules of this repository that are not part of the provided sources
(`labonneboite_common/scoring.py`, `labonneboite_common/mapping.py`,
`labonneboite_common/hiring_type_util.py`, the settings module and the web API
layer) are modelled from the specification; each such definition carries a doc
comment starting with `Modelled from the spec:`.
-/

/-- Python exceptions relevant to the embedded code. -/
inductive PyErr where
  | keyError
  | valueError
  | typeError
  | notImplementedError
deriving DecidableEq

/-- Modelled from the spec: the environment-specific calibration points of the
score/volume curve (`SCORE_50_HIRINGS` … `SCORE_100_HIRINGS` of the missing
`scoring.py`).  §4.1 requires a fixed parametric curve with named calibration
points mapping volumes to the scores 50, 60, 80 and 100; the curve must be
monotonic and invertible, which forces the calibration points to be positive
and strictly increasing. -/
structure ScoringConstants where
  score50Hirings : ℚ
  score60Hirings : ℚ
  score80Hirings : ℚ
  score100Hirings : ℚ
  pos50 : 0 < score50Hirings
  lt5060 : score50Hirings < score60Hirings
  lt6080 : score60Hirings < score80Hirings
  lt80100 : score80Hirings < score100Hirings

/-- Modelled from the spec: the non-production placeholder calibration
(§4.1 "stubbed with safe defaults in non-production configuration"); the
values 10/50/100/500 are pinned by the repository test
`test_query_returns_scores_adjusted_to_rome_code_context`, which asserts
`get_hirings_from_score(71) == 77.5` and `get_hirings_from_score(4.0) == 0.8`. -/
def devScoringConstants : ScoringConstants where
  score50Hirings := 10
  score60Hirings := 50
  score80Hirings := 100
  score100Hirings := 500
  pos50 := by norm_num
  lt5060 := by norm_num
  lt6080 := by norm_num
  lt80100 := by norm_num

/-- Modelled from the spec: `hiringsFromScore` (§4.1), the piecewise-linear map
from a score in [0,100] to a hiring-volume estimate, linear between the
calibration points (0,0), (50,s50), (60,s60), (80,s80), (100,s100). -/
def get_hirings_from_score (c : ScoringConstants) (score : ℚ) : ℚ :=
  if score ≤ 50 then score / 50 * c.score50Hirings
  else if score ≤ 60 then
    c.score50Hirings + (score - 50) / 10 * (c.score60Hirings - c.score50Hirings)
  else if score ≤ 80 then
    c.score60Hirings + (score - 60) / 20 * (c.score80Hirings - c.score60Hirings)
  else
    c.score80Hirings + (score - 80) / 20 * (c.score100Hirings - c.score80Hirings)

/-- Modelled from the spec: `scoreFromHirings` (§4.1), the inverse
piecewise-linear map from a hiring-volume estimate to a score, clamped at 100
for volumes above the last calibration point. -/
def get_score_from_hirings (c : ScoringConstants) (hirings : ℚ) : ℚ :=
  if hirings ≤ c.score50Hirings then hirings / c.score50Hirings * 50
  else if hirings ≤ c.score60Hirings then
    50 + (hirings - c.score50Hirings) / (c.score60Hirings - c.score50Hirings) * 10
  else if hirings ≤ c.score80Hirings then
    60 + (hirings - c.score60Hirings) / (c.score80Hirings - c.score60Hirings) * 20
  else
    min (80 + (hirings - c.score80Hirings) / (c.score100Hirings - c.score80Hirings) * 20) 100

/-- Modelled from the spec: the sector's total hiring-volume weight across all
its occupation codes (§4.3 step 5).  The ROME↔NAF mapping table (§4.2, §3) is a
static map from a sector code to a weighted list of occupation codes. -/
def totalNafHirings (mapping : String → List (String × ℕ)) (naf : String) : ℕ :=
  ((mapping naf).map Prod.snd).sum

/-- Modelled from the spec: `nafHiringsForRome(naf, rome)` (§4.2), the raw
weight for a single sector/occupation edge, `0` if the pair is absent. -/
def nafHiringsForRome (mapping : String → List (String × ℕ)) (naf rome : String) : ℕ :=
  ((mapping naf).lookup rome).getD 0

/-- Modelled from the spec: the per-process configuration and external static
data consumed by the office model — the scoring calibration, the settings
constants (`SCORE_FOR_ROME_MINIMUM`, `HEADCOUNT_SMALL_ONLY_MAXIMUM`,
`HEADCOUNT_INSEE`, `NAF_CODES`, `ROME_DESCRIPTIONS`, `API_INTERNAL_CONSUMERS`),
the static city-code table (`CITY_NAMES`), the ROME↔NAF mapping table, and the
external helpers `slugify`, `url_for` (`None` when outside an application
context) and contact-mode resolution. -/
structure Env where
  calib : ScoringConstants
  scoreForRomeMinimum : ℚ
  headcountSmallOnlyMaximum : ℤ
  mapping : String → List (String × ℕ)
  cityNames : String → Option String
  headcountInsee : String → Option String
  nafCodes : String → Option String
  romeDescriptions : String → Option String
  apiInternalConsumers : List String
  slugifyFn : String → String
  urlFor : String → Option String → Bool → Option String
  contactMode : Option String → String → String

/-- Modelled from the spec: `scoreForOccupation` / the missing
`scoring.get_score_adjusted_to_rome_code_and_naf_code` (§4.3).  No occupation
context returns the aggregate score unchanged (step 1); a score under the
configured floor skips volume-based adjustment and yields the zero fallback
(step 3); a sector with no mapping entries returns the aggregate score
unchanged (step 6); otherwise the aggregate volume is redistributed by the
occupation's weight share and converted back to a score (steps 4, 5, 7, 8, 9 —
rounding is absorbed by the exact rational arithmetic of the model). -/
def get_score_adjusted_to_rome_code_and_naf_code (env : Env) (score : ℚ)
    (romeCode : Option String) (nafCode : String) : ℚ :=
  match romeCode with
  | none => score
  | some rome =>
    if score < env.scoreForRomeMinimum then 0
    else
      let total := totalNafHirings env.mapping nafCode
      if total = 0 then score
      else
        let officeHirings := get_hirings_from_score env.calib score
        let officeHiringsForRome :=
          officeHirings * (nafHiringsForRome env.mapping nafCode rome : ℚ) / (total : ℚ)
        get_score_from_hirings env.calib officeHiringsForRome

/-- Modelled from the spec: `hiring_type_util.DPAE` — the regular-hiring
contract kind (§6 `contract` values, glossary). -/
def hiring_type_DPAE : String := "dpae"

/-- Modelled from the spec: `hiring_type_util.ALTERNANCE` — the apprenticeship
contract kind (§6 `contract` values, glossary). -/
def hiring_type_ALTERNANCE : String := "alternance"

/-- Modelled from the spec: `hiring_type_util.VALUES`, the two known hiring
kinds (`dpae` and `alternance`; the legacy `all` value is not among them). -/
def hiring_type_VALUES : List String := [hiring_type_DPAE, hiring_type_ALTERNANCE]

/-- Modelled from the spec: `hiring_type_util.DEFAULT` — regular hiring is the
default hiring kind. -/
def hiring_type_DEFAULT : String := hiring_type_DPAE

/-- Numeric value of a nonempty list of decimal digits. -/
def digitsVal (l : List Char) : ℕ :=
  l.foldl (fun acc ch => acc * 10 + (ch.toNat - 48)) 0

/-- Python `str.startswith`: prefix test on the character sequences. -/
def pyStartsWith (s pre : String) : Bool := pre.data.isPrefixOf s.data

/-- Python `str.strip()`: surrounding whitespace removed. -/
def pyStripChars (l : List Char) : List Char :=
  ((l.dropWhile Char.isWhitespace).reverse.dropWhile Char.isWhitespace).reverse

/-- Python `int(s)` on a string: surrounding whitespace is ignored, an optional
single sign is allowed, and the rest must be a nonempty run of decimal digits;
otherwise `int` raises `ValueError` (modelled by `none`). -/
def pyStrToInt (s : String) : Option ℤ :=
  let t := pyStripChars s.data
  match t with
  | [] => none
  | c :: rest =>
    let sign : ℤ := if c = '-' then -1 else 1
    let ds : List Char := if c = '-' ∨ c = '+' then rest else t
    if ds ≠ [] ∧ ds.all Char.isDigit then some (sign * (digitsVal ds : ℤ)) else none

/-- Python `int(x)` on an optional string: `int(None)` raises `TypeError`,
an unparsable string raises `ValueError`. -/
def pyInt (s : Option String) : Except PyErr ℤ :=
  match s with
  | none => .error .typeError
  | some str =>
    match pyStrToInt str with
    | some n => .ok n
    | none => .error .valueError

/-- Python `str.upper()` restricted to ASCII case mapping. -/
def pyUpper (s : String) : String := ⟨s.data.map Char.toUpper⟩

/-- Modelled from the spec: `encoding_util.sanitize_string`.  The spec does not
describe the sanitize step; on already-decoded Python 3 strings it is modelled
as the identity. -/
def sanitize_string (s : String) : String := s

/-- Whether `needle` occurs as a contiguous run inside `hay`. -/
def strContainsAux (needle : List Char) : List Char → Bool
  | [] => needle.isEmpty
  | c :: t => needle.isPrefixOf (c :: t) || strContainsAux needle t

/-- SQL `LIKE '%needle%'` substring containment, used on the `sirets` text
column of admin-update records. -/
def strContains (hay needle : String) : Bool := strContainsAux needle.data hay.data

/-- JSON values appearing in office serializations.  Externally supplied job
offer objects are opaque to the office model. -/
inductive JVal where
  | str : String → JVal
  | num : ℚ → JVal
  | bool : Bool → JVal
  | null : JVal
  | arr : List JVal → JVal

/-- Python truthiness of an optional number (`None` and `0` are falsy). -/
def pyTruthyNum (q : Option ℚ) : Bool :=
  match q with
  | some v => !decide (v = 0)
  | none => false

/-- Python truthiness of an optional string (`None` and `''` are falsy). -/
def pyTruthyStr (s : Option String) : Bool :=
  match s with
  | some v => !decide (v = "")
  | none => false

/-- Serialization of an optional string (`None` becomes JSON null). -/
def optStrJ (s : Option String) : JVal :=
  match s with
  | some v => .str v
  | none => .null

/-- Serialization of an optional boolean (`None` becomes JSON null). -/
def optBoolJ (b : Option Bool) : JVal :=
  match b with
  | some v => .bool v
  | none => .null

/-- An `etablissements` row (`Office` model, `office.py`).  Machine floats are
exact rationals; the nullable `headcount` bracket code is an optional string. -/
structure Office where
  siret : String
  naf : String
  office_name : String
  company_name : String
  email : String
  tel : String
  website : String
  street_number : String
  street_name : String
  zipcode : String
  city_code : String
  headcount : Option String
  score : ℚ
  score_alternance : ℚ
  social_network : String
  x : ℚ
  y : ℚ
  has_multi_geolocations : Bool

/-- An `OfficeAdminUpdate` record: a text column listing sirets plus optional
score overrides (nullable numeric columns). -/
structure OfficeAdminUpdate where
  sirets : String
  score : Option ℚ
  score_alternance : Option ℚ

/-- `Office.name`: the uppercased `office_name` when present, else the
uppercased `company_name`, else the fixed fallback, sanitized. -/
def Office.name (o : Office) : String :=
  sanitize_string
    (if o.office_name ≠ "" then pyUpper o.office_name
     else if o.company_name ≠ "" then pyUpper o.company_name
     else "sans nom")

/-- `Office.is_small`: `int(headcount) < settings.HEADCOUNT_SMALL_ONLY_MAXIMUM`,
with `ValueError`/`TypeError` caught and mapped to `True`. -/
def Office.is_small (env : Env) (o : Office) : Bool :=
  match pyInt o.headcount with
  | .ok n => decide (n < env.headcountSmallOnlyMaximum)
  | .error _ => true

/-- `Office.city`: the static city-name table entry for the office's city
code; a missing code starting with `'75'` falls back to `'Paris'`, any other
missing code re-raises the `KeyError`. -/
def Office.city (env : Env) (o : Office) : Except PyErr String :=
  match env.cityNames o.city_code with
  | some cityName => .ok cityName
  | none => if pyStartsWith o.city_code "75" then .ok "Paris" else .error .keyError

/-- `Office.headcount_text`: the INSEE headcount label, `''` when the bracket
code is unknown or the column is NULL (`KeyError` caught). -/
def Office.headcount_text (env : Env) (o : Office) : String :=
  match o.headcount with
  | some h => (env.headcountInsee h).getD ""
  | none => ""

/-- `Office.address_fields`: optional HR-service line for non-small offices,
optional street line, and always the zipcode/city line (whose city lookup may
raise). -/
def Office.address_fields (env : Env) (o : Office) : Except PyErr (List String) :=
  match o.city env with
  | .error e => .error e
  | .ok cityName =>
    .ok ((if o.is_small env then [] else ["Service des ressources humaines"]) ++
         (if o.street_name ≠ "" then [o.street_number ++ " " ++ o.street_name] else []) ++
         [o.zipcode ++ " " ++ cityName])

/-- `Office.address_as_text`: the comma-joined address fields, `None` when the
field list is empty. -/
def Office.address_as_text (env : Env) (o : Office) : Except PyErr (Option String) :=
  match o.address_fields env with
  | .error e => .error e
  | .ok fields =>
    if fields = [] then .ok none else .ok (some (String.intercalate ", " fields))

/-- `Office.get_matched_rome`: `None` without a rome search context, the single
requested code in a single-rome context, and `NotImplementedError` otherwise. -/
def Office.get_matched_rome (o : Office) (rome_codes : Option (List String)) :
    Except PyErr (Option String) :=
  match rome_codes with
  | none => .ok none
  | some [rc] => .ok (some rc)
  | some _ => .error .notImplementedError

/-- `Office.get_score_for_rome_code`: a falsy hiring type (`None` or `''`) is
replaced by the default; an unknown hiring type raises `ValueError`; otherwise
the matching raw score field is adjusted to the rome/naf context. -/
def Office.get_score_for_rome_code (env : Env) (o : Office) (rome_code : Option String)
    (hiring_type : Option String) : Except PyErr ℚ :=
  let ht := match hiring_type with
    | none => hiring_type_DEFAULT
    | some s => if s = "" then hiring_type_DEFAULT else s
  if ht ∈ hiring_type_VALUES then
    let raw_score := if ht = hiring_type_DPAE then o.score else o.score_alternance
    .ok (get_score_adjusted_to_rome_code_and_naf_code env raw_score rome_code o.naf)
  else .error .valueError

/-- Modelled from the spec: `starsFromScore` (§4.1), a linear map from [0,100]
to [0,5]; the non-production values are pinned by the repository test
`test_query_returns_scores_adjusted_to_rome_code_context`, which recovers the
score as 20 times the star rating. -/
def get_stars_from_score (score : ℚ) : ℚ := score / 20

/-- Modelled from the spec: `get_score_from_stars`, inverse of
`get_stars_from_score`. -/
def get_score_from_stars (stars : ℚ) : ℚ := stars * 20

/-- `Office.get_stars_for_rome_code`: the context-adjusted score expressed as a
star rating. -/
def Office.get_stars_for_rome_code (env : Env) (o : Office) (rome_code : Option String)
    (hiring_type : Option String) : Except PyErr ℚ :=
  match o.get_score_for_rome_code env rome_code hiring_type with
  | .error e => .error e
  | .ok s => .ok (get_stars_from_score s)

/-- `Office.is_removed_from_lba`: `False` whenever the apprenticeship score is
positive, else `True` exactly when some admin-update record lists this siret
and forces `score_alternance = 0`. -/
def Office.is_removed_from_lba (o : Office) (admin_updates : List OfficeAdminUpdate) : Bool :=
  if 0 < o.score_alternance then false
  else admin_updates.any
    (fun u => strContains u.sirets o.siret && decide (u.score_alternance = some 0))

/-- `Office.show_multi_geolocations_msg`: true for multi-geolocation offices
unless the given zipcode shares the office's departement prefix. -/
def Office.show_multi_geolocations_msg (o : Office) (distance : Option ℚ)
    (zipcode : Option String) : Bool :=
  if o.has_multi_geolocations then
    match zipcode with
    | some z =>
      if (!(z == "")) && pyStartsWith z (String.mk (o.zipcode.data.take 2)) then false
      else true
    | none => true
  else false

/-- The suffix appended to the address of multi-geolocation offices. -/
def multiGeoSuffix : String := ", Cette entreprise recrute aussi dans votre region."

/-- In-place update of one key of a JSON object, as Python
`json[key] = f(json[key])` on an existing key. -/
def updateAssoc (l : List (String × JVal)) (k : String) (f : JVal → JVal) :
    List (String × JVal) :=
  l.map (fun p => if p.1 = k then (p.1, f p.2) else p)

/-- String concatenation on a JSON string value, as Python `json[key] += s`. -/
def appendSuffixJ (suffix : String) (v : JVal) : JVal :=
  match v with
  | .str s => .str (s ++ suffix)
  | w => w

/-- The three `matched_rome_*` entries of `Office.as_json`, added only under a
truthy rome context; the label lookup may raise `KeyError`. -/
def romeEntries (env : Env) (rome_code : Option String) :
    Except PyErr (List (String × JVal)) :=
  match rome_code with
  | none => .ok []
  | some rc =>
    if rc = "" then .ok []
    else
      match env.romeDescriptions rc with
      | none => .error .keyError
      | some label =>
        .ok [("matched_rome_code", .str rc), ("matched_rome_label", .str label),
             ("matched_rome_slug", .str (env.slugifyFn label))]

/-- The fourteen unconditional entries of the `Office.as_json` dict literal, in
source order. -/
def baseEntries (env : Env) (o : Office) (rome_code : Option String) (alternance : Bool)
    (addr : Option String) (cityName nafText : String) (stars : ℚ) :
    List (String × JVal) :=
  [("address", optStrJ addr),
   ("city", .str cityName),
   ("headcount_text", .str (o.headcount_text env)),
   ("lat", .num o.y),
   ("lon", .num o.x),
   ("naf", .str o.naf),
   ("naf_text", .str nafText),
   ("name", .str o.name),
   ("siret", .str o.siret),
   ("stars", .num stars),
   ("url", optStrJ (env.urlFor o.siret rome_code alternance)),
   ("contact_mode", .str (env.contactMode rome_code o.siret)),
   ("social_network", .str o.social_network),
   ("alternance", .bool false)]

/-- The body of `Office.as_json` once the rome context has been resolved: the
dict literal, the conditional `matched_rome_*` entries, and the conditional
multi-geolocation address suffix.  Any exception raised while computing a value
(city lookup, naf-code lookup, score selection, rome-label lookup) propagates. -/
def Office.as_json_with_rome (env : Env) (o : Office) (rome_code : Option String)
    (hiring_type : Option String) (distance : Option ℚ) (zipcode : Option String) :
    Except PyErr (List (String × JVal)) :=
  match o.address_as_text env with
  | .error e => .error e
  | .ok addr =>
    match o.city env with
    | .error e => .error e
    | .ok cityName =>
      match env.nafCodes o.naf with
      | none => .error .keyError
      | some nafText =>
        match o.get_stars_for_rome_code env rome_code hiring_type with
        | .error e => .error e
        | .ok stars =>
          match romeEntries env rome_code with
          | .error e => .error e
          | .ok extra =>
            let alternance := hiring_type == some hiring_type_ALTERNANCE
            let js := baseEntries env o rome_code alternance addr cityName nafText stars ++
              extra
            if (pyTruthyNum distance || pyTruthyStr zipcode) && pyTruthyStr addr &&
                o.show_multi_geolocations_msg distance zipcode then
              .ok (updateAssoc js "address" (appendSuffixJ multiGeoSuffix))
            else .ok js

/-- `Office.as_json`: resolves the matched rome via `Office.get_matched_rome`
(raising on a multi-rome context) and serializes. -/
def Office.as_json (env : Env) (o : Office) (rome_codes : Option (List String))
    (hiring_type : Option String) (distance : Option ℚ) (zipcode : Option String) :
    Except PyErr (List (String × JVal)) :=
  match o.get_matched_rome rome_codes with
  | .error e => .error e
  | .ok rc => o.as_json_with_rome env rc hiring_type distance zipcode

/-- An `OfficeResult`: a per-request decoration of an office with matched rome,
distance, boost flag, offers count, position and offers. -/
structure OfficeResult where
  office : Office
  matched_rome : Option String
  distance : Option ℚ
  boost : Option Bool
  offers_count : Option ℤ
  position : Option ℤ
  offers : Option (List JVal)

/-- `OfficeResult.get_matched_rome`: like the office version, but a multi-rome
context resolves to the stored `matched_rome` tag instead of raising. -/
def OfficeResult.get_matched_rome (r : OfficeResult) (rome_codes : Option (List String)) :
    Except PyErr (Option String) :=
  match rome_codes with
  | none => .ok none
  | some [rc] => .ok (some rc)
  | some _ => .ok r.matched_rome

/-- The entries appended by `OfficeResult.as_json` after the office
serialization: conditional `distance`, unconditional `boosted`, conditional
`offers_count` and `offers`, in source order. -/
def OfficeResult.extraEntries (r : OfficeResult) : List (String × JVal) :=
  (match r.distance with
   | some d => [("distance", JVal.num d)]
   | none => []) ++
  [("boosted", optBoolJ r.boost)] ++
  (match r.offers_count with
   | some n => [("offers_count", JVal.num (n : ℚ))]
   | none => []) ++
  (match r.offers with
   | some l => [("offers", JVal.arr l)]
   | none => [])

/-- `OfficeResult.as_json`: the office serialization (with the overridden
matched-rome resolution) followed by the result-specific entries. -/
def OfficeResult.as_json (env : Env) (r : OfficeResult) (rome_codes : Option (List String))
    (hiring_type : Option String) (distance : Option ℚ) (zipcode : Option String) :
    Except PyErr (List (String × JVal)) :=
  match r.get_matched_rome rome_codes with
  | .error e => .error e
  | .ok rc =>
    match r.office.as_json_with_rome env rc hiring_type distance zipcode with
    | .error e => .error e
    | .ok js => .ok (js ++ r.extraEntries)

/-- Modelled from the spec: the office-details API response body (§6, §8) — the
office serialization, with the sensitive contact fields `email`, `phone`,
`website` appended only when the calling consumer is on the internal-consumer
allow-list (`settings.API_INTERNAL_CONSUMERS`). -/
def office_details_response (env : Env) (o : Office) (user : String)
    (rome_codes : Option (List String)) (hiring_type : Option String)
    (distance : Option ℚ) (zipcode : Option String) :
    Except PyErr (List (String × JVal)) :=
  match o.as_json env rome_codes hiring_type distance zipcode with
  | .error e => .error e
  | .ok js =>
    if user ∈ env.apiInternalConsumers then
      .ok (js ++ [("email", JVal.str o.email), ("phone", JVal.str o.tel),
                  ("website", JVal.str o.website)])
    else .ok js

/-- Modelled from the spec: the `update_offices` materialization of an
admin-update record (§3) — the override writes its non-null score fields onto
every office row whose siret is listed in the record. -/
def apply_admin_update (u : OfficeAdminUpdate) (o : Office) : Office :=
  if strContains u.sirets o.siret then
    { o with score := u.score.getD o.score,
             score_alternance := u.score_alternance.getD o.score_alternance }
  else o

/-- Modelled from the spec: hiring-kind-specific visibility (§4.4) — an office
whose score under the active hiring kind is `0` is excluded from search and
detail lookup (404-equivalent) for that hiring kind. -/
def office_visible_for_hiring_kind (o : Office) (hiring_kind : String) : Bool :=
  if hiring_kind = hiring_type_ALTERNANCE then !decide (o.score_alternance = 0)
  else !decide (o.score = 0)

/-- The complete set of keys an `Office.as_json` object can contain. -/
def knownOfficeJsonKeys : List String :=
  ["address", "city", "headcount_text", "lat", "lon", "naf", "naf_text", "name", "siret",
   "stars", "url", "contact_mode", "social_network", "alternance",
   "matched_rome_code", "matched_rome_label", "matched_rome_slug"]

/-- A concrete environment for the witnesses, mirroring the repository test
fixtures. -/
def sampleEnv : Env where
  calib := devScoringConstants
  scoreForRomeMinimum := 20
  headcountSmallOnlyMaximum := 10
  mapping := fun naf => if naf = "4772A" then [("D1405", 52), ("D1214", 7792)] else []
  cityNames := fun code => if code = "54055" then some "BAYONVILLE-SUR-MAD" else none
  headcountInsee := fun h => if h = "12" then some "10 a 19 salaries" else none
  nafCodes := fun n => if n = "4772A" then some "Etudes de marche et sondages" else none
  romeDescriptions := fun rc => if rc = "D1405" then some "Conseil en information" else none
  apiInternalConsumers := ["labonneboite"]
  slugifyFn := fun s => s
  urlFor := fun _ _ _ => none
  contactMode := fun _ _ => "mail"

/-- A concrete office for the witnesses. -/
def sampleOffice : Office where
  siret := "00000000000001"
  naf := "4772A"
  office_name := "Office 1"
  company_name := ""
  email := "office@example.com"
  tel := "0199000000"
  website := "https://example.com"
  street_number := "12"
  street_name := "rue Fictive"
  zipcode := "54890"
  city_code := "54055"
  headcount := some "12"
  score := 71
  score_alternance := 60
  social_network := ""
  x := 6
  y := 49
  has_multi_geolocations := false

/-- A concrete office result for the witnesses. -/
def sampleResult : OfficeResult where
  office := sampleOffice
  matched_rome := some "D1405"
  distance := some (9 / 2)
  boost := some false
  offers_count := none
  position := some 0
  offers := none

/-- The serialization of `sampleOffice` without any rome context. -/
def sampleBaseJson : List (String × JVal) :=
  [("address", .str "Service des ressources humaines, 12 rue Fictive, 54890 BAYONVILLE-SUR-MAD"),
   ("city", .str "BAYONVILLE-SUR-MAD"),
   ("headcount_text", .str "10 a 19 salaries"),
   ("lat", .num 49),
   ("lon", .num 6),
   ("naf", .str "4772A"),
   ("naf_text", .str "Etudes de marche et sondages"),
   ("name", .str "OFFICE 1"),
   ("siret", .str "00000000000001"),
   ("stars", .num (71 / 20)),
   ("url", .null),
   ("contact_mode", .str "mail"),
   ("social_network", .str ""),
   ("alternance", .bool false)]

lemma score50Hirings_pos (c : ScoringConstants) : 0 < c.score50Hirings := c.pos50

lemma score60Hirings_pos (c : ScoringConstants) : 0 < c.score60Hirings :=
  lt_trans c.pos50 c.lt5060

lemma score80Hirings_pos (c : ScoringConstants) : 0 < c.score80Hirings :=
  lt_trans (score60Hirings_pos c) c.lt6080

lemma score100Hirings_pos (c : ScoringConstants) : 0 < c.score100Hirings :=
  lt_trans (score80Hirings_pos c) c.lt80100

/-- The score-to-volume-to-score round trip is exact in the rational model. -/
lemma score_roundtrip (c : ScoringConstants) (s : ℚ) (h0 : 0 ≤ s) (h100 : s ≤ 100) :
    get_score_from_hirings c (get_hirings_from_score c s) = s := by
  have p50 := c.pos50
  have p5060 := c.lt5060
  have p6080 := c.lt6080
  have p80100 := c.lt80100
  rw [get_hirings_from_score]
  by_cases h1 : s ≤ 50
  · rw [if_pos h1, get_score_from_hirings]
    have hdiv : s / 50 ≤ 1 := by
      rw [div_le_one (by norm_num : (0:ℚ) < 50)]; linarith
    have hle : s / 50 * c.score50Hirings ≤ c.score50Hirings := by
      have := mul_le_mul_of_nonneg_right hdiv (le_of_lt p50)
      linarith
    rw [if_pos hle]
    field_simp
    ring
  · rw [if_neg h1]
    by_cases h2 : s ≤ 60
    · rw [if_pos h2, get_score_from_hirings]
      have hgap : 0 < c.score60Hirings - c.score50Hirings := by linarith
      have hfrac0 : 0 < (s - 50) / 10 := div_pos (by linarith) (by norm_num)
      have hfrac1 : (s - 50) / 10 ≤ 1 := by
        rw [div_le_one (by norm_num : (0:ℚ) < 10)]; linarith
      have hEgt : c.score50Hirings <
          c.score50Hirings + (s - 50) / 10 * (c.score60Hirings - c.score50Hirings) := by
        have := mul_pos hfrac0 hgap
        linarith
      have hEle : c.score50Hirings + (s - 50) / 10 * (c.score60Hirings - c.score50Hirings) ≤
          c.score60Hirings := by
        have := mul_le_mul_of_nonneg_right hfrac1 (le_of_lt hgap)
        linarith
      rw [if_neg (not_le.mpr hEgt), if_pos hEle]
      have hg : c.score60Hirings - c.score50Hirings ≠ 0 := ne_of_gt hgap
      field_simp
      ring
    · rw [if_neg h2]
      by_cases h3 : s ≤ 80
      · rw [if_pos h3, get_score_from_hirings]
        have hgap : 0 < c.score80Hirings - c.score60Hirings := by linarith
        have hfrac0 : 0 < (s - 60) / 20 := div_pos (by linarith) (by norm_num)
        have hfrac1 : (s - 60) / 20 ≤ 1 := by
          rw [div_le_one (by norm_num : (0:ℚ) < 20)]; linarith
        have hEgt : c.score60Hirings <
            c.score60Hirings + (s - 60) / 20 * (c.score80Hirings - c.score60Hirings) := by
          have := mul_pos hfrac0 hgap
          linarith
        have hEle : c.score60Hirings + (s - 60) / 20 * (c.score80Hirings - c.score60Hirings) ≤
            c.score80Hirings := by
          have := mul_le_mul_of_nonneg_right hfrac1 (le_of_lt hgap)
          linarith
        have hEgt50 : ¬ (c.score60Hirings + (s - 60) / 20 * (c.score80Hirings - c.score60Hirings) ≤
            c.score50Hirings) := by
          push_neg
          linarith
        rw [if_neg hEgt50, if_neg (not_le.mpr hEgt), if_pos hEle]
        have hg : c.score80Hirings - c.score60Hirings ≠ 0 := ne_of_gt hgap
        field_simp
        ring
      · rw [if_neg h3, get_score_from_hirings]
        have hgap : 0 < c.score100Hirings - c.score80Hirings := by linarith
        have hfrac0 : 0 < (s - 80) / 20 := div_pos (by linarith) (by norm_num)
        have hEgt : c.score80Hirings <
            c.score80Hirings + (s - 80) / 20 * (c.score100Hirings - c.score80Hirings) := by
          have := mul_pos hfrac0 hgap
          linarith
        have hEgt50 : ¬ (c.score80Hirings + (s - 80) / 20 * (c.score100Hirings - c.score80Hirings) ≤
            c.score50Hirings) := by
          push_neg
          linarith
        have hEgt60 : ¬ (c.score80Hirings + (s - 80) / 20 * (c.score100Hirings - c.score80Hirings) ≤
            c.score60Hirings) := by
          push_neg
          linarith
        rw [if_neg hEgt50, if_neg hEgt60, if_neg (not_le.mpr hEgt)]
        have hg : c.score100Hirings - c.score80Hirings ≠ 0 := ne_of_gt hgap
        have hkey : (c.score80Hirings + (s - 80) / 20 * (c.score100Hirings - c.score80Hirings) -
            c.score80Hirings) / (c.score100Hirings - c.score80Hirings) * 20 = s - 80 := by
          field_simp
          ring
        rw [hkey]
        have h80s : 80 + (s - 80) = s := by ring
        rw [h80s]
        exact min_eq_left h100

/-- Bounds: a score in [0,100] maps to a hiring volume in [0, s100]. -/
lemma hirings_bounds (c : ScoringConstants) (s : ℚ) (h0 : 0 ≤ s) (h100 : s ≤ 100) :
    0 ≤ get_hirings_from_score c s ∧ get_hirings_from_score c s ≤ c.score100Hirings := by
  have p50 := c.pos50
  have p5060 := c.lt5060
  have p6080 := c.lt6080
  have p80100 := c.lt80100
  rw [get_hirings_from_score]
  split_ifs with h1 h2 h3
  · constructor
    · exact mul_nonneg (div_nonneg h0 (by norm_num)) (le_of_lt p50)
    · have hdiv : s / 50 ≤ 1 := by
        rw [div_le_one (by norm_num : (0:ℚ) < 50)]; linarith
      have := mul_le_mul_of_nonneg_right hdiv (le_of_lt p50)
      linarith
  · have hgap : 0 < c.score60Hirings - c.score50Hirings := by linarith
    have hf0 : 0 ≤ (s - 50) / 10 := div_nonneg (by linarith) (by norm_num)
    have hf1 : (s - 50) / 10 ≤ 1 := by
      rw [div_le_one (by norm_num : (0:ℚ) < 10)]; linarith
    constructor
    · have := mul_nonneg hf0 (le_of_lt hgap)
      linarith
    · have := mul_le_mul_of_nonneg_right hf1 (le_of_lt hgap)
      linarith
  · have hgap : 0 < c.score80Hirings - c.score60Hirings := by linarith
    have hf0 : 0 ≤ (s - 60) / 20 := div_nonneg (by linarith) (by norm_num)
    have hf1 : (s - 60) / 20 ≤ 1 := by
      rw [div_le_one (by norm_num : (0:ℚ) < 20)]; linarith
    constructor
    · have := mul_nonneg hf0 (le_of_lt hgap)
      linarith
    · have := mul_le_mul_of_nonneg_right hf1 (le_of_lt hgap)
      linarith
  · have hgap : 0 < c.score100Hirings - c.score80Hirings := by linarith
    have hf0 : 0 ≤ (s - 80) / 20 := div_nonneg (by linarith) (by norm_num)
    have hf1 : (s - 80) / 20 ≤ 1 := by
      rw [div_le_one (by norm_num : (0:ℚ) < 20)]; linarith
    constructor
    · have := mul_nonneg hf0 (le_of_lt hgap)
      linarith
    · have := mul_le_mul_of_nonneg_right hf1 (le_of_lt hgap)
      linarith

/-- The volume-to-score-to-volume round trip is exact on [0, s100]. -/
lemma hirings_roundtrip (c : ScoringConstants) (h : ℚ)
    (h0 : 0 ≤ h) (hmax : h ≤ c.score100Hirings) :
    get_hirings_from_score c (get_score_from_hirings c h) = h := by
  have p50 := c.pos50
  have p5060 := c.lt5060
  have p6080 := c.lt6080
  have p80100 := c.lt80100
  rw [get_score_from_hirings]
  by_cases h1 : h ≤ c.score50Hirings
  · rw [if_pos h1, get_hirings_from_score]
    have hdiv : h / c.score50Hirings ≤ 1 := by
      rw [div_le_one p50]; linarith
    have hle : h / c.score50Hirings * 50 ≤ 50 := by
      have := mul_le_mul_of_nonneg_right hdiv (by norm_num : (0:ℚ) ≤ 50)
      linarith
    rw [if_pos hle]
    field_simp
    ring
  · rw [if_neg h1]
    by_cases h2 : h ≤ c.score60Hirings
    · rw [if_pos h2, get_hirings_from_score]
      have hgap : 0 < c.score60Hirings - c.score50Hirings := by linarith
      have hf0 : 0 < (h - c.score50Hirings) / (c.score60Hirings - c.score50Hirings) :=
        div_pos (by linarith) hgap
      have hf1 : (h - c.score50Hirings) / (c.score60Hirings - c.score50Hirings) ≤ 1 := by
        rw [div_le_one hgap]; linarith
      have hsgt : ¬ (50 + (h - c.score50Hirings) / (c.score60Hirings - c.score50Hirings) * 10 ≤ 50) := by
        push_neg
        nlinarith
      have hsle : 50 + (h - c.score50Hirings) / (c.score60Hirings - c.score50Hirings) * 10 ≤ 60 := by
        nlinarith
      rw [if_neg hsgt, if_pos hsle]
      have hg : c.score60Hirings - c.score50Hirings ≠ 0 := ne_of_gt hgap
      field_simp
      ring
    · rw [if_neg h2]
      by_cases h3 : h ≤ c.score80Hirings
      · rw [if_pos h3, get_hirings_from_score]
        have hgap : 0 < c.score80Hirings - c.score60Hirings := by linarith
        have hf0 : 0 < (h - c.score60Hirings) / (c.score80Hirings - c.score60Hirings) :=
          div_pos (by linarith) hgap
        have hf1 : (h - c.score60Hirings) / (c.score80Hirings - c.score60Hirings) ≤ 1 := by
          rw [div_le_one hgap]; linarith
        have hsgt50 : ¬ (60 + (h - c.score60Hirings) / (c.score80Hirings - c.score60Hirings) * 20 ≤ 50) := by
          push_neg
          nlinarith
        have hsgt60 : ¬ (60 + (h - c.score60Hirings) / (c.score80Hirings - c.score60Hirings) * 20 ≤ 60) := by
          push_neg
          nlinarith
        have hsle : 60 + (h - c.score60Hirings) / (c.score80Hirings - c.score60Hirings) * 20 ≤ 80 := by
          nlinarith
        rw [if_neg hsgt50, if_neg hsgt60, if_pos hsle]
        have hg : c.score80Hirings - c.score60Hirings ≠ 0 := ne_of_gt hgap
        field_simp
        ring
      · rw [if_neg h3, get_hirings_from_score]
        have hgap : 0 < c.score100Hirings - c.score80Hirings := by linarith
        have hf0 : 0 < (h - c.score80Hirings) / (c.score100Hirings - c.score80Hirings) :=
          div_pos (by linarith) hgap
        have hf1 : (h - c.score80Hirings) / (c.score100Hirings - c.score80Hirings) ≤ 1 := by
          rw [div_le_one hgap]; linarith
        have hle100 : 80 + (h - c.score80Hirings) / (c.score100Hirings - c.score80Hirings) * 20 ≤ 100 := by
          nlinarith
        rw [min_eq_left hle100]
        have hsgt50 : ¬ (80 + (h - c.score80Hirings) / (c.score100Hirings - c.score80Hirings) * 20 ≤ 50) := by
          push_neg
          nlinarith
        have hsgt60 : ¬ (80 + (h - c.score80Hirings) / (c.score100Hirings - c.score80Hirings) * 20 ≤ 60) := by
          push_neg
          nlinarith
        have hsgt80 : ¬ (80 + (h - c.score80Hirings) / (c.score100Hirings - c.score80Hirings) * 20 ≤ 80) := by
          push_neg
          nlinarith
        rw [if_neg hsgt50, if_neg hsgt60, if_neg hsgt80]
        have hg : c.score100Hirings - c.score80Hirings ≠ 0 := ne_of_gt hgap
        field_simp
        ring

/-- A weight found in a weighted association list is at most the sum of all
its weights. -/
lemma lookup_le_sum (l : List (String × ℕ)) (r : String) (w : ℕ)
    (hl : l.lookup r = some w) : w ≤ (l.map Prod.snd).sum := by
  induction l with
  | nil => simp [List.lookup] at hl
  | cons p t ih =>
    rw [List.lookup] at hl
    by_cases he : r == p.1
    · rw [he] at hl
      simp at hl
      simp [← hl]
    · simp only [he] at hl
      have := ih hl
      simp
      omega

/-- C1: for every score s in [0,100], converting s to a hiring-volume estimate
with `get_hirings_from_score` and converting back with
`get_score_from_hirings` yields s again within an absolute tolerance of 1e-3
(the round trip is in fact exact in the rational model), for any calibration. -/
theorem C1_score_volume_roundtrip (c : ScoringConstants) (s : ℚ)
    (h0 : 0 ≤ s) (h100 : s ≤ 100) :
    |get_score_from_hirings c (get_hirings_from_score c s) - s| ≤ 1 / 1000 := by
  rw [score_roundtrip c s h0 h100]
  simp


theorem C1_score_volume_roundtrip_witness :
    (0:ℚ) ≤ 71 ∧ (71:ℚ) ≤ 100 ∧
    |get_score_from_hirings devScoringConstants
        (get_hirings_from_score devScoringConstants 71) - 71| ≤ 1 / 1000 :=
  ⟨by norm_num, by norm_num,
   C1_score_volume_roundtrip devScoringConstants 71 (by norm_num) (by norm_num)⟩

/-- C2: for any sector whose mapping entries sum to a positive total weight T,
any occupation with weight w in that sector, and any aggregate score at or
above the floor (and within [0,100]), the contextual score satisfies
`hiringsFromScore(contextualScore) = hiringsFromScore(aggregateScore) * w / T`
— exactly, in the rational model, hence within any rounding tolerance. -/
theorem C2_contextual_adjustment_conservation (env : Env) (naf rome : String) (w : ℕ)
    (score : ℚ)
    (hlook : (env.mapping naf).lookup rome = some w)
    (htot : 0 < totalNafHirings env.mapping naf)
    (hfloor : env.scoreForRomeMinimum ≤ score)
    (h0 : 0 ≤ score) (h100 : score ≤ 100) :
    get_hirings_from_score env.calib
        (get_score_adjusted_to_rome_code_and_naf_code env score (some rome) naf) =
      get_hirings_from_score env.calib score * (w : ℚ) /
        (totalNafHirings env.mapping naf : ℚ) := by
  have hw : nafHiringsForRome env.mapping naf rome = w := by
    rw [nafHiringsForRome, hlook]
    rfl
  have hne : ¬ (totalNafHirings env.mapping naf = 0) := Nat.pos_iff_ne_zero.mp htot
  have hTQ : (0:ℚ) < (totalNafHirings env.mapping naf : ℚ) := by exact_mod_cast htot
  have hH := hirings_bounds env.calib score h0 h100
  have hwle : (w : ℚ) ≤ (totalNafHirings env.mapping naf : ℚ) := by
    have := lookup_le_sum (env.mapping naf) rome w hlook
    exact_mod_cast this
  have hc0 : 0 ≤ get_hirings_from_score env.calib score * (w : ℚ) /
      (totalNafHirings env.mapping naf : ℚ) :=
    div_nonneg (mul_nonneg hH.1 (Nat.cast_nonneg w)) (le_of_lt hTQ)
  have hcle : get_hirings_from_score env.calib score * (w : ℚ) /
      (totalNafHirings env.mapping naf : ℚ) ≤ env.calib.score100Hirings := by
    have hmul : get_hirings_from_score env.calib score * (w : ℚ) ≤
        get_hirings_from_score env.calib score * (totalNafHirings env.mapping naf : ℚ) :=
      mul_le_mul_of_nonneg_left hwle hH.1
    have hdivle : get_hirings_from_score env.calib score * (w : ℚ) /
        (totalNafHirings env.mapping naf : ℚ) ≤ get_hirings_from_score env.calib score := by
      rw [div_le_iff hTQ]
      calc get_hirings_from_score env.calib score * (w : ℚ) ≤
          get_hirings_from_score env.calib score * (totalNafHirings env.mapping naf : ℚ) :=
            hmul
        _ = get_hirings_from_score env.calib score *
            (totalNafHirings env.mapping naf : ℚ) := rfl
    linarith [hH.2]
  simp only [get_score_adjusted_to_rome_code_and_naf_code]
  rw [if_neg (not_lt.mpr hfloor), if_neg hne, hw]
  exact hirings_roundtrip env.calib _ hc0 hcle

theorem C2_contextual_adjustment_conservation_witness :
    (sampleEnv.mapping "4772A").lookup "D1405" = some 52 ∧
    0 < totalNafHirings sampleEnv.mapping "4772A" ∧
    sampleEnv.scoreForRomeMinimum ≤ 71 ∧
    get_hirings_from_score sampleEnv.calib
        (get_score_adjusted_to_rome_code_and_naf_code sampleEnv 71 (some "D1405") "4772A") =
      get_hirings_from_score sampleEnv.calib 71 * ((52 : ℕ) : ℚ) /
        (totalNafHirings sampleEnv.mapping "4772A" : ℚ) :=
  ⟨by decide, by decide, by norm_num [sampleEnv],
   C2_contextual_adjustment_conservation sampleEnv "4772A" "D1405" 52 71
     (by decide) (by decide) (by norm_num [sampleEnv]) (by norm_num) (by norm_num)⟩

/-- Uppercasing a nonempty string yields a nonempty string. -/
lemma pyUpper_ne_empty (s : String) (h : s ≠ "") : pyUpper s ≠ "" := by
  intro hc
  apply h
  apply String.ext
  have hd : (pyUpper s).data = s.data.map Char.toUpper := rfl
  rw [hc] at hd
  have hnil : s.data = [] := List.map_eq_nil.mp hd.symm
  rw [hnil]

/-- Looking a key up past a prefix that does not bind it. -/
lemma lookup_append_left_none (l1 l2 : List (String × JVal)) (k : String)
    (h : l1.lookup k = none) : (l1 ++ l2).lookup k = l2.lookup k := by
  induction l1 with
  | nil => simp
  | cons p t ih =>
    rw [List.lookup] at h
    cases hk : k == p.1
    · rw [hk] at h
      rw [List.cons_append, List.lookup, hk]
      exact ih h
    · rw [hk] at h
      simp at h

/-- Looking a key up in a prefix when the suffix does not bind it. -/
lemma lookup_append_right_none (l1 l2 : List (String × JVal)) (k : String)
    (h : l2.lookup k = none) : (l1 ++ l2).lookup k = l1.lookup k := by
  induction l1 with
  | nil => exact h
  | cons p t ih =>
    rw [List.cons_append, List.lookup, List.lookup]
    cases hk : k == p.1
    · exact ih
    · rfl

/-- A key absent from the key list of an association list has no binding. -/
lemma lookup_eq_none_of_not_mem_keys (l : List (String × JVal)) (k : String)
    (h : k ∉ l.map Prod.fst) : l.lookup k = none := by
  induction l with
  | nil => rfl
  | cons p t ih =>
    simp only [List.map_cons, List.mem_cons] at h
    push_neg at h
    have hbeq : (k == p.1) = false := beq_eq_false_iff_ne.mpr h.1
    rw [List.lookup, hbeq]
    exact ih h.2

/-- `updateAssoc` preserves the key list. -/
lemma updateAssoc_keys (l : List (String × JVal)) (k : String) (f : JVal → JVal) :
    (updateAssoc l k f).map Prod.fst = l.map Prod.fst := by
  induction l with
  | nil => rfl
  | cons p t ih =>
    by_cases h : p.1 = k <;> simp [updateAssoc, h] at ih ⊢ <;> exact ih

/-- The keys of the conditional `matched_rome_*` entries. -/
lemma romeEntries_keys (env : Env) (rc : Option String) (extra : List (String × JVal))
    (h : romeEntries env rc = Except.ok extra) :
    ∀ k ∈ extra.map Prod.fst, k ∈ knownOfficeJsonKeys := by
  cases rc with
  | none =>
    rw [romeEntries] at h
    simp at h
    subst h
    simp
  | some rcv =>
    rw [romeEntries] at h
    by_cases he : rcv = ""
    · rw [if_pos he] at h
      simp at h
      subst h
      simp
    · rw [if_neg he] at h
      cases hd : env.romeDescriptions rcv with
      | none =>
        rw [hd] at h
        exact absurd h (by simp)
      | some label =>
        rw [hd] at h
        simp at h
        subst h
        intro k hk
        simp at hk
        rcases hk with rfl | rfl | rfl <;> decide

/-- The keys of the fourteen unconditional entries. -/
lemma baseEntries_keys (env : Env) (o : Office) (rc : Option String) (alt : Bool)
    (addr : Option String) (cityName nafText : String) (stars : ℚ) :
    ∀ k ∈ (baseEntries env o rc alt addr cityName nafText stars).map Prod.fst,
      k ∈ knownOfficeJsonKeys := by
  intro k hk
  simp [baseEntries] at hk
  rcases hk with rfl|rfl|rfl|rfl|rfl|rfl|rfl|rfl|rfl|rfl|rfl|rfl|rfl|rfl <;> decide

/-- Every key of an `Office.as_json_with_rome` object is a known office key. -/
lemma as_json_with_rome_keys (env : Env) (o : Office) (rc : Option String)
    (ht : Option String) (d : Option ℚ) (z : Option String)
    (js : List (String × JVal))
    (h : Office.as_json_with_rome env o rc ht d z = Except.ok js) :
    ∀ k ∈ js.map Prod.fst, k ∈ knownOfficeJsonKeys := by
  rw [Office.as_json_with_rome] at h
  cases h1 : o.address_as_text env with
  | error e => rw [h1] at h; exact absurd h (by simp)
  | ok addr =>
    rw [h1] at h
    cases h2 : o.city env with
    | error e => rw [h2] at h; exact absurd h (by simp)
    | ok cityName =>
      rw [h2] at h
      cases h3 : env.nafCodes o.naf with
      | none => rw [h3] at h; exact absurd h (by simp)
      | some nafText =>
        rw [h3] at h
        cases h4 : o.get_stars_for_rome_code env rc ht with
        | error e => rw [h4] at h; exact absurd h (by simp)
        | ok stars =>
          rw [h4] at h
          cases h5 : romeEntries env rc with
          | error e => rw [h5] at h; exact absurd h (by simp)
          | ok extra =>
            rw [h5] at h
            have hextra := romeEntries_keys env rc extra h5
            have hbase := baseEntries_keys env o rc (ht == some hiring_type_ALTERNANCE)
              addr cityName nafText stars
            simp only at h
            split_ifs at h with hcond
            · simp at h
              subst h
              intro k hk
              rw [updateAssoc_keys] at hk
              rw [List.map_append] at hk
              rcases List.mem_append.mp hk with hk | hk
              · exact hbase k hk
              · exact hextra k hk
            · simp at h
              subst h
              intro k hk
              rw [List.map_append] at hk
              rcases List.mem_append.mp hk with hk | hk
              · exact hbase k hk
              · exact hextra k hk

/-- Every key of an `Office.as_json` object is a known office key. -/
lemma as_json_keys (env : Env) (o : Office) (codes : Option (List String))
    (ht : Option String) (d : Option ℚ) (z : Option String)
    (js : List (String × JVal))
    (h : Office.as_json env o codes ht d z = Except.ok js) :
    ∀ k ∈ js.map Prod.fst, k ∈ knownOfficeJsonKeys := by
  rw [Office.as_json] at h
  cases hm : o.get_matched_rome codes with
  | error e => rw [hm] at h; exact absurd h (by simp)
  | ok rc =>
    rw [hm] at h
    exact as_json_with_rome_keys env o rc ht d z js h

/-- C3 counterexample: on the base `Office` class, a multi-rome search context
does not resolve to any matched occupation code — `get_matched_rome` raises
`NotImplementedError` instead of consulting an index-match tag. -/
theorem C3_matched_rome_counterexample :
    Office.get_matched_rome sampleOffice (some ["D1405", "M1607"]) =
      Except.error PyErr.notImplementedError := rfl

/-- C3 (amended): with no occupation context both `Office.get_matched_rome`
and `OfficeResult.get_matched_rome` yield no matched code; with exactly one
requested code both yield exactly that code; with more than one requested
code only `OfficeResult.get_matched_rome` resolves to the stored index-match
tag (`matched_rome`), while `Office.get_matched_rome` raises
`NotImplementedError`. -/
theorem C3_matched_rome_resolution (o : Office) (r : OfficeResult)
    (codes : List String) :
    Office.get_matched_rome o none = Except.ok none ∧
    OfficeResult.get_matched_rome r none = Except.ok none ∧
    (∀ rc : String, Office.get_matched_rome o (some [rc]) = Except.ok (some rc)) ∧
    (∀ rc : String, OfficeResult.get_matched_rome r (some [rc]) = Except.ok (some rc)) ∧
    (2 ≤ codes.length →
      Office.get_matched_rome o (some codes) = Except.error PyErr.notImplementedError ∧
      OfficeResult.get_matched_rome r (some codes) = Except.ok r.matched_rome) := by
  refine ⟨rfl, rfl, fun rc => rfl, fun rc => rfl, fun hlen => ?_⟩
  match codes with
  | [] => simp at hlen
  | [a] => simp at hlen
  | a :: b :: t => exact ⟨rfl, rfl⟩

theorem C3_matched_rome_resolution_witness :
    2 ≤ (["D1405", "M1607"] : List String).length ∧
    (Office.get_matched_rome sampleOffice (some ["D1405", "M1607"]) =
        Except.error PyErr.notImplementedError ∧
      OfficeResult.get_matched_rome sampleResult (some ["D1405", "M1607"]) =
        Except.ok sampleResult.matched_rome) :=
  ⟨by decide,
   (C3_matched_rome_resolution sampleOffice sampleResult ["D1405", "M1607"]).2.2.2.2
     (by decide)⟩

/-- C6 counterexample: the empty string is a hiring-kind value outside the
known values, yet `get_score_for_rome_code` does not raise `ValueError` on it —
being falsy, it is replaced by the default kind before validation, and the
regular score is returned. -/
theorem C6_hiring_type_counterexample :
    "" ∉ hiring_type_VALUES ∧
    Office.get_score_for_rome_code sampleEnv sampleOffice none (some "") =
      Except.ok sampleOffice.score :=
  ⟨by decide, rfl⟩

/-- C6 (amended): `get_score_for_rome_code` adjusts the regular score field
when the hiring kind is `dpae`, omitted, or the falsy empty string (all of
which resolve to the default kind `dpae`), adjusts the `score_alternance`
field when it is `alternance`, and raises `ValueError` for every non-empty
hiring-kind value outside the known values. -/
theorem C6_hiring_kind_dispatch (env : Env) (o : Office) (rc : Option String)
    (ht : Option String) :
    ((ht = none ∨ ht = some "") →
      Office.get_score_for_rome_code env o rc ht =
        Except.ok (get_score_adjusted_to_rome_code_and_naf_code env o.score rc o.naf)) ∧
    (Office.get_score_for_rome_code env o rc (some hiring_type_DPAE) =
      Except.ok (get_score_adjusted_to_rome_code_and_naf_code env o.score rc o.naf)) ∧
    (Office.get_score_for_rome_code env o rc (some hiring_type_ALTERNANCE) =
      Except.ok
        (get_score_adjusted_to_rome_code_and_naf_code env o.score_alternance rc o.naf)) ∧
    (∀ s : String, s ≠ "" → s ∉ hiring_type_VALUES →
      Office.get_score_for_rome_code env o rc (some s) = Except.error PyErr.valueError) := by
  refine ⟨?_, ?_, ?_, ?_⟩
  · rintro (rfl | rfl) <;> rfl
  · rfl
  · rfl
  · intro s hne hnotin
    rw [Office.get_score_for_rome_code]
    simp only [if_neg hne]
    rw [if_neg hnotin]

theorem C6_hiring_kind_dispatch_witness :
    ((none : Option String) = none ∨ (none : Option String) = some "") ∧
    Office.get_score_for_rome_code sampleEnv sampleOffice none none =
      Except.ok (get_score_adjusted_to_rome_code_and_naf_code sampleEnv
        sampleOffice.score none sampleOffice.naf) ∧
    ("all" : String) ≠ "" ∧ "all" ∉ hiring_type_VALUES ∧
    Office.get_score_for_rome_code sampleEnv sampleOffice none (some "all") =
      Except.error PyErr.valueError :=
  ⟨Or.inl rfl,
   (C6_hiring_kind_dispatch sampleEnv sampleOffice none none).1 (Or.inl rfl),
   by decide, by decide,
   (C6_hiring_kind_dispatch sampleEnv sampleOffice none (some "all")).2.2.2 "all"
     (by decide) (by decide)⟩

/-- C7: the `small` headcount classification holds exactly when the headcount
code parses (as Python `int`) to a value strictly below the configured
threshold, and a missing or non-numeric headcount is classified as small; the
classification is total (the `ValueError`/`TypeError` are caught). -/
theorem C7_is_small_characterization (env : Env) (o : Office) :
    (∀ n : ℤ, pyInt o.headcount = Except.ok n →
      (o.is_small env = true ↔ n < env.headcountSmallOnlyMaximum)) ∧
    (∀ e : PyErr, pyInt o.headcount = Except.error e → o.is_small env = true) := by
  constructor
  · intro n hn
    rw [Office.is_small, hn]
    exact decide_eq_true_iff
  · intro e he
    rw [Office.is_small, he]

theorem C7_is_small_characterization_witness :
    pyInt sampleOffice.headcount = Except.ok 12 ∧
    (sampleOffice.is_small sampleEnv = true ↔
      (12 : ℤ) < sampleEnv.headcountSmallOnlyMaximum) ∧
    pyInt (none : Option String) = Except.error PyErr.typeError ∧
    pyInt (some "NULL") = Except.error PyErr.valueError :=
  ⟨rfl,
   (C7_is_small_characterization sampleEnv sampleOffice).1 12 rfl,
   rfl, rfl⟩

/-- C8: when the office's city code is missing from the static city-name
table, the lookup falls back to `'Paris'` exactly when the code starts with
`'75'`; for any other missing code the `KeyError` propagates. -/
theorem C8_city_fallback (env : Env) (o : Office)
    (hmiss : env.cityNames o.city_code = none) :
    (pyStartsWith o.city_code "75" = true → Office.city env o = Except.ok "Paris") ∧
    (pyStartsWith o.city_code "75" = false →
      Office.city env o = Except.error PyErr.keyError) := by
  rw [Office.city, hmiss]
  constructor <;> intro h <;> simp [h]

theorem C8_city_fallback_witness :
    sampleEnv.cityNames "75001" = none ∧
    sampleEnv.cityNames "12345" = none ∧
    Office.city sampleEnv { sampleOffice with city_code := "75001" } = Except.ok "Paris" ∧
    Office.city sampleEnv { sampleOffice with city_code := "12345" } =
      Except.error PyErr.keyError :=
  ⟨rfl, rfl,
   (C8_city_fallback sampleEnv { sampleOffice with city_code := "75001" }
     rfl).1 (by decide),
   (C8_city_fallback sampleEnv { sampleOffice with city_code := "12345" }
     rfl).2 (by decide)⟩

/-- C9: the office name is never empty — it is the sanitized uppercased
`office_name` when present, else the sanitized uppercased `company_name`, else
the sanitized fixed fallback `'sans nom'`. -/
theorem C9_name_never_empty (o : Office) :
    Office.name o ≠ "" ∧
    (o.office_name ≠ "" → Office.name o = sanitize_string (pyUpper o.office_name)) ∧
    (o.office_name = "" → o.company_name ≠ "" →
      Office.name o = sanitize_string (pyUpper o.company_name)) ∧
    (o.office_name = "" → o.company_name = "" →
      Office.name o = sanitize_string "sans nom") := by
  refine ⟨?_, ?_, ?_, ?_⟩
  · rw [Office.name]
    simp only [sanitize_string]
    split_ifs with h1 h2
    · exact pyUpper_ne_empty _ h1
    · exact pyUpper_ne_empty _ h2
    · decide
  · intro h1
    simp [Office.name, sanitize_string, h1]
  · intro h1 h2
    simp [Office.name, sanitize_string, h1, h2]
  · intro h1 h2
    simp [Office.name, sanitize_string, h1, h2]

theorem C9_name_never_empty_witness :
    sampleOffice.office_name ≠ "" ∧
    Office.name sampleOffice = sanitize_string (pyUpper sampleOffice.office_name) ∧
    Office.name sampleOffice ≠ "" :=
  ⟨by decide,
   (C9_name_never_empty sampleOffice).2.1 (by decide),
   (C9_name_never_empty sampleOffice).1⟩

/-- C4: applying an admin-update record that forces `score_alternance = 0` on
an office (with both scores initially positive) makes it invisible in the
apprenticeship hiring context while it stays visible in the regular context,
and the office is then reported removed from LBA by `is_removed_from_lba`;
symmetrically, a record forcing `score = 0` hides it only from the regular
context, and `is_removed_from_lba` still reports it present on LBA. -/
theorem C4_admin_override_visibility (o : Office) (u1 u2 : OfficeAdminUpdate)
    (h1s : strContains u1.sirets o.siret = true)
    (h1a : u1.score = none) (h1b : u1.score_alternance = some 0)
    (h2s : strContains u2.sirets o.siret = true)
    (h2a : u2.score = some 0) (h2b : u2.score_alternance = none)
    (hdpae : 0 < o.score) (halt : 0 < o.score_alternance) :
    (office_visible_for_hiring_kind (apply_admin_update u1 o) hiring_type_ALTERNANCE =
        false ∧
      office_visible_for_hiring_kind (apply_admin_update u1 o) hiring_type_DPAE = true ∧
      Office.is_removed_from_lba (apply_admin_update u1 o) [u1] = true) ∧
    (office_visible_for_hiring_kind (apply_admin_update u2 o) hiring_type_DPAE = false ∧
      office_visible_for_hiring_kind (apply_admin_update u2 o) hiring_type_ALTERNANCE =
        true ∧
      Office.is_removed_from_lba (apply_admin_update u2 o) [u2] = false) := by
  have ho1 : apply_admin_update u1 o =
      { o with score_alternance := 0 } := by
    rw [apply_admin_update, if_pos h1s, h1a, h1b]
    rfl
  have ho2 : apply_admin_update u2 o = { o with score := 0 } := by
    rw [apply_admin_update, if_pos h2s, h2a, h2b]
    rfl
  constructor
  · refine ⟨?_, ?_, ?_⟩
    · rw [ho1, office_visible_for_hiring_kind, if_pos rfl]
      simp
    · rw [ho1, office_visible_for_hiring_kind,
        if_neg (by rw [hiring_type_DPAE, hiring_type_ALTERNANCE]; simp)]
      simp [ne_of_gt hdpae]
    · rw [ho1, Office.is_removed_from_lba]
      rw [if_neg (by simp)]
      simp only [List.any_cons, List.any_nil, Bool.or_false]
      rw [h1b]
      simp [h1s]
  · refine ⟨?_, ?_, ?_⟩
    · rw [ho2, office_visible_for_hiring_kind,
        if_neg (by rw [hiring_type_DPAE, hiring_type_ALTERNANCE]; simp)]
      simp
    · rw [ho2, office_visible_for_hiring_kind, if_pos rfl]
      simp [ne_of_gt halt]
    · rw [ho2, Office.is_removed_from_lba]
      rw [if_pos halt]

theorem C4_admin_override_visibility_witness :
    strContains "00000000000001" sampleOffice.siret = true ∧
    (0:ℚ) < sampleOffice.score ∧ (0:ℚ) < sampleOffice.score_alternance ∧
    ((office_visible_for_hiring_kind
        (apply_admin_update
          { sirets := "00000000000001", score := none, score_alternance := some 0 }
          sampleOffice) hiring_type_ALTERNANCE = false ∧
      office_visible_for_hiring_kind
        (apply_admin_update
          { sirets := "00000000000001", score := none, score_alternance := some 0 }
          sampleOffice) hiring_type_DPAE = true ∧
      Office.is_removed_from_lba
        (apply_admin_update
          { sirets := "00000000000001", score := none, score_alternance := some 0 }
          sampleOffice)
        [{ sirets := "00000000000001", score := none, score_alternance := some 0 }] =
          true) ∧
     (office_visible_for_hiring_kind
        (apply_admin_update
          { sirets := "00000000000001", score := some 0, score_alternance := none }
          sampleOffice) hiring_type_DPAE = false ∧
      office_visible_for_hiring_kind
        (apply_admin_update
          { sirets := "00000000000001", score := some 0, score_alternance := none }
          sampleOffice) hiring_type_ALTERNANCE = true ∧
      Office.is_removed_from_lba
        (apply_admin_update
          { sirets := "00000000000001", score := some 0, score_alternance := none }
          sampleOffice)
        [{ sirets := "00000000000001", score := some 0, score_alternance := none }] =
          false)) :=
  ⟨by decide, by norm_num [sampleOffice], by norm_num [sampleOffice],
   C4_admin_override_visibility sampleOffice
     { sirets := "00000000000001", score := none, score_alternance := some 0 }
     { sirets := "00000000000001", score := some 0, score_alternance := none }
     (by decide) rfl rfl (by decide) rfl rfl
     (by norm_num [sampleOffice]) (by norm_num [sampleOffice])⟩

/-- C10: the `OfficeResult.as_json` output always contains the key `boosted`
(bound to the boost flag, `False` by default), contains `distance`,
`offers_count` and `offers` exactly when the corresponding field is not
`None`, and binds every other key exactly as the underlying office
serialization does. -/
theorem C10_office_result_as_json_frame (env : Env) (r : OfficeResult)
    (rome_codes : Option (List String)) (ht : Option String) (d : Option ℚ)
    (z : Option String) (rc : Option String) (base : List (String × JVal))
    (hrc : r.get_matched_rome rome_codes = Except.ok rc)
    (hbase : Office.as_json_with_rome env r.office rc ht d z = Except.ok base) :
    OfficeResult.as_json env r rome_codes ht d z =
      Except.ok (base ++ r.extraEntries) ∧
    (base ++ r.extraEntries).lookup "boosted" = some (optBoolJ r.boost) ∧
    (base ++ r.extraEntries).lookup "distance" = r.distance.map JVal.num ∧
    (base ++ r.extraEntries).lookup "offers_count" =
      Option.map (fun n : ℤ => JVal.num (n : ℚ)) r.offers_count ∧
    (base ++ r.extraEntries).lookup "offers" = r.offers.map JVal.arr ∧
    (∀ k : String, k ≠ "distance" → k ≠ "boosted" → k ≠ "offers_count" →
      k ≠ "offers" → (base ++ r.extraEntries).lookup k = base.lookup k) := by
  have hkeys := as_json_with_rome_keys env r.office rc ht d z base hbase
  have habsent : ∀ k : String, k ∉ knownOfficeJsonKeys → base.lookup k = none := by
    intro k hk
    refine lookup_eq_none_of_not_mem_keys base k (fun hmem => hk (hkeys k hmem))
  refine ⟨?_, ?_, ?_, ?_, ?_, ?_⟩
  · simp only [OfficeResult.as_json, hrc, hbase]
  · rw [lookup_append_left_none base _ _ (habsent "boosted" (by decide))]
    obtain ⟨off, mr, dist, boost, oc, pos, ofs⟩ := r
    cases dist <;> cases oc <;> cases ofs <;> rfl
  · rw [lookup_append_left_none base _ _ (habsent "distance" (by decide))]
    obtain ⟨off, mr, dist, boost, oc, pos, ofs⟩ := r
    cases dist <;> cases oc <;> cases ofs <;> rfl
  · rw [lookup_append_left_none base _ _ (habsent "offers_count" (by decide))]
    obtain ⟨off, mr, dist, boost, oc, pos, ofs⟩ := r
    cases dist <;> cases oc <;> cases ofs <;> rfl
  · rw [lookup_append_left_none base _ _ (habsent "offers" (by decide))]
    obtain ⟨off, mr, dist, boost, oc, pos, ofs⟩ := r
    cases dist <;> cases oc <;> cases ofs <;> rfl
  · intro k h1 h2 h3 h4
    refine lookup_append_right_none base _ k ?_
    have b1 : (k == "distance") = false := beq_eq_false_iff_ne.mpr h1
    have b2 : (k == "boosted") = false := beq_eq_false_iff_ne.mpr h2
    have b3 : (k == "offers_count") = false := beq_eq_false_iff_ne.mpr h3
    have b4 : (k == "offers") = false := beq_eq_false_iff_ne.mpr h4
    obtain ⟨off, mr, dist, boost, oc, pos, ofs⟩ := r
    cases dist <;> cases oc <;> cases ofs <;>
      simp [OfficeResult.extraEntries, List.lookup, b1, b2, b3, b4]

theorem C10_office_result_as_json_frame_witness :
    sampleResult.get_matched_rome none = Except.ok none ∧
    Office.as_json_with_rome sampleEnv sampleResult.office none none none none =
      Except.ok sampleBaseJson ∧
    OfficeResult.as_json sampleEnv sampleResult none none none none =
      Except.ok (sampleBaseJson ++ sampleResult.extraEntries) :=
  ⟨rfl, rfl,
   (C10_office_result_as_json_frame sampleEnv sampleResult none none none none
     none sampleBaseJson rfl rfl).1⟩

/-- C5: an office-details response for a caller off the internal-consumer
allow-list never contains the keys `email`, `phone` or `website`; the same
request for an allow-listed caller contains all three; every other key is
bound identically in the two responses. -/
theorem C5_sensitive_fields_gating (env : Env) (o : Office) (u1 u2 : String)
    (codes : Option (List String)) (ht : Option String) (d : Option ℚ)
    (z : Option String) (base : List (String × JVal))
    (hbase : Office.as_json env o codes ht d z = Except.ok base)
    (hu1 : u1 ∉ env.apiInternalConsumers)
    (hu2 : u2 ∈ env.apiInternalConsumers) :
    office_details_response env o u1 codes ht d z = Except.ok base ∧
    base.lookup "email" = none ∧
    base.lookup "phone" = none ∧
    base.lookup "website" = none ∧
    office_details_response env o u2 codes ht d z =
      Except.ok (base ++ [("email", JVal.str o.email), ("phone", JVal.str o.tel),
        ("website", JVal.str o.website)]) ∧
    (base ++ [("email", JVal.str o.email), ("phone", JVal.str o.tel),
        ("website", JVal.str o.website)]).lookup "email" = some (JVal.str o.email) ∧
    (base ++ [("email", JVal.str o.email), ("phone", JVal.str o.tel),
        ("website", JVal.str o.website)]).lookup "phone" = some (JVal.str o.tel) ∧
    (base ++ [("email", JVal.str o.email), ("phone", JVal.str o.tel),
        ("website", JVal.str o.website)]).lookup "website" = some (JVal.str o.website) ∧
    (∀ k : String, k ≠ "email" → k ≠ "phone" → k ≠ "website" →
      (base ++ [("email", JVal.str o.email), ("phone", JVal.str o.tel),
        ("website", JVal.str o.website)]).lookup k = base.lookup k) := by
  have hkeys := as_json_keys env o codes ht d z base hbase
  have habsent : ∀ k : String, k ∉ knownOfficeJsonKeys → base.lookup k = none := by
    intro k hk
    refine lookup_eq_none_of_not_mem_keys base k (fun hmem => hk (hkeys k hmem))
  have he : base.lookup "email" = none := habsent "email" (by decide)
  have hp : base.lookup "phone" = none := habsent "phone" (by decide)
  have hw : base.lookup "website" = none := habsent "website" (by decide)
  refine ⟨?_, he, hp, hw, ?_, ?_, ?_, ?_, ?_⟩
  · simp only [office_details_response, hbase, if_neg hu1]
  · simp only [office_details_response, hbase, if_pos hu2]
  · rw [lookup_append_left_none base _ _ he]
    rfl
  · rw [lookup_append_left_none base _ _ hp]
    rfl
  · rw [lookup_append_left_none base _ _ hw]
    rfl
  · intro k h1 h2 h3
    refine lookup_append_right_none base _ k ?_
    have b1 : (k == "email") = false := beq_eq_false_iff_ne.mpr h1
    have b2 : (k == "phone") = false := beq_eq_false_iff_ne.mpr h2
    have b3 : (k == "website") = false := beq_eq_false_iff_ne.mpr h3
    simp [List.lookup, b1, b2, b3]

theorem C5_sensitive_fields_gating_witness :
    Office.as_json sampleEnv sampleOffice none none none none =
      Except.ok sampleBaseJson ∧
    "emploi_store_dev" ∉ sampleEnv.apiInternalConsumers ∧
    "labonneboite" ∈ sampleEnv.apiInternalConsumers ∧
    office_details_response sampleEnv sampleOffice "emploi_store_dev" none none none none =
      Except.ok sampleBaseJson ∧
    office_details_response sampleEnv sampleOffice "labonneboite" none none none none =
      Except.ok (sampleBaseJson ++
        [("email", JVal.str sampleOffice.email), ("phone", JVal.str sampleOffice.tel),
         ("website", JVal.str sampleOffice.website)]) :=
  ⟨rfl, by decide, by decide,
   (C5_sensitive_fields_gating sampleEnv sampleOffice "emploi_store_dev" "labonneboite"
     none none none none sampleBaseJson rfl (by decide) (by decide)).1,
   (C5_sensitive_fields_gating sampleEnv sampleOffice "emploi_store_dev" "labonneboite"
     none none none none sampleBaseJson rfl (by decide) (by decide)).2.2.2.2.1⟩
